import Mathlib

/-!
Verification of the pisces routing/dispatch core (src/pisces/__init__.py)
against its natural-language specification.

The Python module is shallowly embedded: each class becomes a structure,
each method a Lean function with the same name where Lean's grammar allows
it.  Python None is Option.none; request/response dictionaries are
association lists; a handler body is an opaque function from its keyword
arguments to an optional result mapping.  The Python re library is not part
of the repository; its behaviour is modelled for exactly the fragment of
patterns that Route._compile_regex produces from route templates: literal
characters, backslash-escaped literals, a + quantifier on a literal, and
named wildcard groups of the shape produced by the substitution.  The $
anchor is modelled as end-of-string (request paths contain no newline).
-/

/-- A Python value in this code base: a string or None. -/
abbrev Val := Option String

/-- The dictionary a handler returns (json_obj in the source). -/
abbrev ResultMapping := List (String × Val)

/-- Named captures produced by a pattern match (re groupdict). -/
abbrev Caps := List (String × String)

/-!  Pattern compilation: Route._compile_regex builds the pattern string
     "^" + re.sub(r"(<.*?>)", r"(?P\1.*)", url) + "$".  -/

/-- One pass of re.sub(r"(<.*?>)", r"(?P\1.*)", url) as a character state
machine.  The first argument is none outside a candidate placeholder and
some acc (reversed name chars) after an unclosed opening angle bracket.
A dot in the Python pattern does not cross a newline, so a newline aborts
the candidate, and an unclosed bracket at end of input stays literal. -/
def subSM : Option (List Char) → List Char → List Char
  | none, [] => []
  | none, c :: rest =>
      if c = '<' then subSM (some []) rest else c :: subSM none rest
  | some acc, [] => '<' :: acc.reverse
  | some acc, c :: rest =>
      if c = '>' then
        '(' :: '?' :: 'P' :: '<' :: (acc.reverse ++ '>' :: '.' :: '*' :: ')' :: subSM none rest)
      else if c = '\n' then '<' :: (acc.reverse ++ '\n' :: subSM none rest)
      else subSM (some (c :: acc)) rest

/-- Route._compile_regex, the pattern string handed to re.compile:
turns each placeholder into a named wildcard group and anchors both ends.
No escaping of the literal template text is performed. -/
def compiledPattern (url : String) : String :=
  "^" ++ String.mk (subSM none url.data) ++ "$"

/-- A token of the compiled pattern, covering the regex fragment the
compiler can emit from a route template (see the file comment). -/
inductive RTok where
  | lit (c : Char)
  | plus (c : Char)
  | grp (name : String)
deriving Repr, DecidableEq

/-- Parser state: at top level, or inside the name of a named group. -/
inductive PSt where
  | top
  | gname (acc : List Char)

/-- Parses the body of a compiled pattern (anchors already stripped) into
tokens: named wildcard groups, escaped literals, a literal with a +
quantifier, or a plain literal.  Malformed group heads fall back to
literal characters. -/
def parseSM : PSt → List Char → List RTok
  | .top, [] => []
  | .top, '(' :: '?' :: 'P' :: '<' :: rest => parseSM (.gname []) rest
  | .top, '\\' :: c :: '+' :: rest => .plus c :: parseSM .top rest
  | .top, '\\' :: c :: rest => .lit c :: parseSM .top rest
  | .top, c :: '+' :: rest => .plus c :: parseSM .top rest
  | .top, c :: rest => .lit c :: parseSM .top rest
  | .gname acc, '>' :: '.' :: '*' :: ')' :: rest =>
      .grp (String.mk acc.reverse) :: parseSM .top rest
  | .gname acc, '>' :: rest =>
      (('(' :: '?' :: 'P' :: '<' :: acc.reverse ++ ['>']).map .lit) ++ parseSM .top rest
  | .gname acc, c :: rest => parseSM (.gname (c :: acc)) rest
  | .gname acc, [] => ('(' :: '?' :: 'P' :: '<' :: acc.reverse).map .lit

/-- The token form of the matcher a Route stores (re.compile of the
compiled pattern, with the two anchors stripped). -/
def compiledTokens (url : String) : List RTok :=
  parseSM .top (((compiledPattern url).data.drop 1).dropLast)

/-- First success of f k, f (k-1), ..., f 0: the descending order in which
a greedy backtracking quantifier tries capture lengths. -/
def tryFrom (f : Nat → Option α) : Nat → Option α
  | 0 => f 0
  | k + 1 =>
      match f (k + 1) with
      | some r => some r
      | none => tryFrom f k

/-- Greedy backtracking matcher for the token fragment, with fuel.  Every
recursive call consumes one token, so fuel larger than the token count is
enough.  A group tries the longest capture first (greedy), a plus the
longest run of its literal of length at least one. -/
def reMatchF : Nat → List RTok → List Char → Option Caps
  | 0, _, _ => none
  | _ + 1, [], cs => if cs.isEmpty then some [] else none
  | f + 1, RTok.lit c :: ts, cs =>
      match cs with
      | [] => none
      | d :: cs' => if d = c then reMatchF f ts cs' else none
  | f + 1, RTok.plus c :: ts, cs =>
      tryFrom
        (fun k =>
          if 1 ≤ k ∧ (cs.take k).all (fun d => d == c) then reMatchF f ts (cs.drop k)
          else none)
        cs.length
  | f + 1, RTok.grp n :: ts, cs =>
      tryFrom
        (fun k => (reMatchF f ts (cs.drop k)).map (fun caps => (n, String.mk (cs.take k)) :: caps))
        cs.length

/-- Anchored match of a compiled pattern against a full path, as
re.match does for a pattern of the form caret-body-dollar. -/
def reMatch (ts : List RTok) (cs : List Char) : Option Caps :=
  reMatchF (ts.length + 1) ts cs

/-- The names of the named groups of a token list, in order. -/
def grpNames : List RTok → List String
  | [] => []
  | RTok.grp n :: ts => n :: grpNames ts
  | _ :: ts => grpNames ts

/-!  Requests, handlers and routes.  -/

/-- The request surface the core reads (werkzeug Request): path, method,
query args, form data and cookies as dictionaries. -/
structure Request where
  path : String
  method : String
  args : List (String × String)
  form : List (String × String)
  cookies : List (String × String)

/-- dict.get: the value under a key, or None. -/
def dictGet (l : List (String × String)) (k : String) : Option String :=
  l.lookup k

/-- A Python callable as seen by inspect.getargspec and by invocation:
its declared positional argument names, the name of its double-star
catch-all if any, its declared defaults, and its body as a function from
the keyword arguments actually passed to the optional result mapping. -/
structure Handler where
  args : List String
  kwName : Option String
  defaults : List (String × Val)
  ret : (String → Option Val) → Option ResultMapping

/-- The attribute table of a handler target object: getattr resolves a
name to an attribute, whose value may itself be None. -/
abbrev Attrs := List (String × Option Handler)

/-- functools.partial(method, params): the resolved handler together
with the URL captures bound as keyword arguments. -/
structure BoundCall where
  func : Handler
  keywords : List (String × String)

/-- Errors a dispatch can raise: AttributeError from Route.handle when the
callback does not resolve, TypeError from unpacking a non-mapping. -/
inductive DispatchError where
  | attributeError
  | typeError
deriving Repr, DecidableEq

def ALL_METHODS : List String := ["GET", "POST"]

/-- Route: a single mapping from url to a method on an instance. -/
structure Route where
  _url : String
  inst : Attrs
  _callback : String
  _methods : List String

/-- Route.__init__: compiles the url (stored via Route.re below) and
defaults methods to ALL_METHODS when the argument is absent. -/
def Route.make (url : String) (inst : Attrs) (method_str : String)
    (methods : Option (List String)) : Route :=
  { _url := url, inst := inst, _callback := method_str,
    _methods :=
      match methods with
      | none => ALL_METHODS
      | some ms => ms }

/-- The compiled matcher stored at construction (self._re). -/
def Route.re (r : Route) : List RTok :=
  compiledTokens r._url

/-- Route._match: the groupdict on a match, otherwise None. -/
def Route._match (r : Route) (route : String) : Option Caps :=
  reMatch r.re route.data

/-- Route.handles_route: the matcher matches and the method is allowed. -/
def Route.handles_route (r : Route) (route method : String) : Bool :=
  (r._match route).isSome && r._methods.contains method

/-- getattr on the instance: none when the attribute is missing. -/
def lookupAttr (a : Attrs) (n : String) : Option (Option Handler) :=
  a.lookup n

/-- Route.handle: re-matches the route, resolves the callback on the
instance (AttributeError when missing or None), and returns the partial
application of the method to the matched params.  When the route does not
match, params is None and the double-star unpacking raises TypeError. -/
def Route.handle (r : Route) (route : String) : Except DispatchError BoundCall :=
  match lookupAttr r.inst r._callback with
  | none => .error .attributeError
  | some none => .error .attributeError
  | some (some h) =>
      match r._match route with
      | none => .error .typeError
      | some params => .ok ⟨h, params⟩

/-- Router: a collection of Route objects. -/
structure Router where
  endpoints : List Route

/-- The loop body of Router.match: first endpoint whose handles_route is
true wins and its handle result is returned; falling off the loop returns
None. -/
def routerGo : List Route → String → String → Except DispatchError (Option BoundCall)
  | [], _, _ => .ok none
  | e :: es, route, method =>
      if e.handles_route route method then (e.handle route).map some
      else routerGo es route method

/-- Router.match (match is a Lean keyword, hence the suffix). -/
def Router.match_route (ro : Router) (route method : String) :
    Except DispatchError (Option BoundCall) :=
  routerGo ro.endpoints route method

/-!  Providers, consumers, response.  -/

/-- An ArgProvider: a prefix (pfx here, prefix is reserved in this
development) and get_value pulling a key out of the request. -/
structure ArgProvider where
  pfx : String
  get_value : Request → String → Val

def GetProvider : ArgProvider := ⟨"get", fun req p => dictGet req.args p⟩

def PostProvider : ArgProvider := ⟨"post", fun req p => dictGet req.form p⟩

def CookieProvider : ArgProvider := ⟨"cookie", fun req p => dictGet req.cookies p⟩

/-- The response surface the core writes (werkzeug Response): mimetype,
the ordered cookie operations performed on it, and the serialized body.
set_cookie records (name, some value); delete_cookie records (name, none).
json.dumps is modelled as storing the remaining mapping itself. -/
structure Response where
  mimetype : String
  cookieOps : List (String × Val)
  data : Option ResultMapping
deriving Repr, DecidableEq

def Response.mkJson : Response := ⟨"application/json", [], none⟩

def Response.set_cookie (r : Response) (name v : String) : Response :=
  { r with cookieOps := r.cookieOps ++ [(name, some v)] }

def Response.delete_cookie (r : Response) (name : String) : Response :=
  { r with cookieOps := r.cookieOps ++ [(name, none)] }

/-- A ResponseConsumer: a prefix and set_value writing into the response. -/
structure ResponseConsumer where
  pfx : String
  set_value : Response → String → Val → Response

/-- CookieHandler: both an ArgProvider and a ResponseConsumer, carrying
the cookie_name given at construction (default pisces_cookie). -/
structure CookieHandler where
  cookie_name : String

def CookieHandler.default : CookieHandler := ⟨"pisces_cookie"⟩

/-- CookieHandler.get_value: pulls the value from a given cookie. -/
def CookieHandler.get_value (_ch : CookieHandler) (req : Request) (param : String) : Val :=
  dictGet req.cookies param

/-- CookieHandler.set_value: a None value deletes the cookie named key;
otherwise the cookie named by the handler's cookie_name field (not the
key) is set to the value, exactly as the source reads. -/
def CookieHandler.set_value (ch : CookieHandler) (resp : Response) (key : String)
    (value : Val) : Response :=
  match value with
  | none => resp.delete_cookie key
  | some v => resp.set_cookie ch.cookie_name v

def CookieHandler.toArgProvider (ch : CookieHandler) : ArgProvider :=
  ⟨"cookie", ch.get_value⟩

def CookieHandler.toConsumer (ch : CookieHandler) : ResponseConsumer :=
  ⟨"cookie", ch.set_value⟩

/-!  AppContainer: parameter extraction, consumer mutations, wsgi_app.  -/

/-- param.split(double underscore, 1): the text before the first
occurrence of the separator and everything after it, or None when the
separator does not occur (the ValueError branch in the source). -/
def splitOnceSep : List Char → Option (List Char × List Char)
  | [] => none
  | '_' :: '_' :: rest => some ([], rest)
  | c :: rest => (splitOnceSep rest).map (fun p => (c :: p.1, p.2))

def splitOnce (s : String) : Option (String × String) :=
  (splitOnceSep s.data).map (fun p => (String.mk p.1, String.mk p.2))

/-- The lookup table built by iterating a provider list into a dict keyed
by prefix: a later provider with the same prefix overrides an earlier
one, hence the reverse-find. -/
def lookupTableP (provs : List ArgProvider) (k : String) : Option ArgProvider :=
  provs.reverse.find? (fun p => p.pfx == k)

/-- Same dict construction for consumers (consumer_map in the source). -/
def lookupTableC (cons : List ResponseConsumer) (k : String) : Option ResponseConsumer :=
  cons.reverse.find? (fun c => c.pfx == k)

/-- The signature set assembled from inspect.getargspec(method.func):
the declared argument names, unioned with set(argspec.keywords).  In
Python, set applied to the catch-all name string yields its individual
characters, faithfully reproduced here as one-character strings. -/
def signatureOf (h : Handler) : List String :=
  h.args ++
    (match h.kwName with
     | some s => s.data.map (fun c => String.mk [c])
     | none => [])

/-- AppContainer._extract_params_from_request, as the dictionary it
builds, viewed as a function from parameter name to optional bound value:
names already passed in from the url match and self are discarded; a
remaining name is split on the first double underscore and, when its
prefix has a registered provider, bound to that provider's value. -/
def _extract_params_from_request (provs : List ArgProvider) (m : BoundCall)
    (req : Request) : String → Option Val :=
  fun param =>
    let passed := m.keywords.map Prod.fst
    let remaining :=
      (signatureOf m.func).filter (fun a => !(passed.contains a) && a != "self")
    if remaining.contains param then
      match splitOnce param with
      | none => none
      | some kv =>
          match lookupTableP provs kv.1 with
          | none => none
          | some prov => some (prov.get_value req kv.2)
    else none

/-- The keyword arguments the handler body receives when the partial is
called with the extracted params: call-time keywords take precedence,
then the partial's own keywords (the URL captures). -/
def BoundCall.callKwargs (m : BoundCall) (extra : String → Option Val) :
    String → Option Val :=
  fun p =>
    match extra p with
    | some v => some v
    | none => (m.keywords.lookup p).map some

/-- method(extra_params) in wsgi_app: run the handler body on the merged
keyword arguments. -/
def BoundCall.invoke (m : BoundCall) (extra : String → Option Val) :
    Option ResultMapping :=
  m.func.ret (m.callKwargs extra)

/-- The value a declared argument ends up with at call time under Python
calling conventions: an explicitly passed keyword argument wins over the
declared default; with neither, the argument is missing. -/
def effectiveArg (h : Handler) (kwargs : String → Option Val) (a : String) : Option Val :=
  match kwargs a with
  | some v => some v
  | none => h.defaults.lookup a

/-- AppContainer.apply_consumer_mutations: walk the snapshot of the
returned mapping in order; a key that splits on the first double
underscore and whose prefix has a registered consumer is fed to that
consumer's set_value and deleted from the mapping; every other key stays
(the ValueError and KeyError branches continue the loop). -/
def apply_consumer_mutations (cons : List ResponseConsumer) :
    ResultMapping → Response → ResultMapping × Response
  | [], resp => ([], resp)
  | (key, value) :: rest, resp =>
      match splitOnce key with
      | none =>
          let r := apply_consumer_mutations cons rest resp
          ((key, value) :: r.1, r.2)
      | some cp =>
          match lookupTableC cons cp.1 with
          | none =>
              let r := apply_consumer_mutations cons rest resp
              ((key, value) :: r.1, r.2)
          | some c => apply_consumer_mutations cons rest (c.set_value resp cp.2 value)

/-- The default provider list of AppContainer.__init__. -/
def defaultProviders : List ArgProvider :=
  [PostProvider, GetProvider, CookieHandler.default.toArgProvider]

/-- The default consumer list of AppContainer.__init__. -/
def defaultConsumers : List ResponseConsumer :=
  [CookieHandler.default.toConsumer]

/-- AppContainer: adapter layer between WSGI and the Endpoint objects. -/
structure AppContainer where
  _routes : List Router
  _arg_providers : List ArgProvider
  _consumers : List ResponseConsumer

/-- AppContainer.__init__ with its None defaults. -/
def AppContainer.make (router : Router) (providers : Option (List ArgProvider))
    (consumers : Option (List ResponseConsumer)) : AppContainer :=
  { _routes := [router],
    _arg_providers := providers.getD defaultProviders,
    _consumers := consumers.getD defaultConsumers }

/-- What one WSGI dispatch produces: a response, the NotFound raised after
the router loop, or a propagated error from Route.handle. -/
inductive WsgiOutcome where
  | response (r : Response)
  | notFound
  | error (e : DispatchError)

/-- The router loop of AppContainer.wsgi_app: a router whose match is None
is skipped; a matched method is invoked on the extracted params; a None
value_map falls through to the next router; a mapping is pruned by the
consumers, serialized, and returned; falling off the loop raises
NotFound.  Errors from Route.handle propagate. -/
def wsgiLoop (provs : List ArgProvider) (cons : List ResponseConsumer)
    (req : Request) : List Router → WsgiOutcome
  | [] => .notFound
  | ro :: rest =>
      match ro.match_route req.path req.method with
      | .error e => .error e
      | .ok none => wsgiLoop provs cons req rest
      | .ok (some m) =>
          let extra := _extract_params_from_request provs m req
          match m.invoke extra with
          | none => wsgiLoop provs cons req rest
          | some value_map =>
              let pr := apply_consumer_mutations cons value_map Response.mkJson
              .response { pr.2 with data := some pr.1 }

/-- AppContainer.wsgi_app (the Request construction from the WSGI environ
is outside the modelled surface; the request is taken directly). -/
def AppContainer.wsgi_app (app : AppContainer) (req : Request) : WsgiOutcome :=
  wsgiLoop app._arg_providers app._consumers req app._routes

/-!  Concrete fixtures used by witnesses and counterexamples.  -/

/-- A handler body that returns no mapping (no body to produce). -/
def handlerNoBody : Handler := ⟨["self"], none, [], fun _ => none⟩

/-- A route at the root whose handler legitimately returns None. -/
def routeNoBody : Route := Route.make "/" [("index", some handlerNoBody)] "index" none

/-- The app container around that single route, with default registries. -/
def appNoBody : AppContainer := AppContainer.make ⟨[routeNoBody]⟩ none none

/-- A bare GET request for the root path. -/
def reqRoot : Request := ⟨"/", "GET", [], [], []⟩

/-- A handler declaring get__foo with a declared default for it. -/
def handlerGetFoo : Handler :=
  ⟨["self", "get__foo"], none, [("get__foo", some "declared_default")], fun _ => none⟩

/-- A request whose query string carries foo=bar. -/
def reqFooBar : Request := ⟨"/", "GET", [("foo", "bar")], [], []⟩

/-- A route whose callback name is missing on its instance. -/
def routeMissingCb : Route := Route.make "/<test>" [] "test" none

/-- A route with a resolvable callback and one placeholder. -/
def routeWithCb : Route := Route.make "/<test>" [("test", some handlerNoBody)] "test" none

/-!  Helper lemmas.  -/

/-- A success of the descending search comes from some index below the
starting point. -/
theorem tryFrom_eq_some {α : Type} (f : Nat → Option α) :
    ∀ (k : Nat) (r : α), tryFrom f k = some r → ∃ j, j ≤ k ∧ f j = some r := by
  intro k
  induction k with
  | zero =>
      intro r h
      exact ⟨0, Nat.le_refl 0, h⟩
  | succ k ih =>
      intro r h
      simp only [tryFrom] at h
      cases hf : f (k + 1) with
      | some r' =>
          rw [hf] at h
          simp only [] at h
          exact ⟨k + 1, Nat.le_refl _, by rw [hf]; exact h⟩
      | none =>
          rw [hf] at h
          simp only [] at h
          obtain ⟨j, hj, hfj⟩ := ih r h
          exact ⟨j, Nat.le_succ_of_le hj, hfj⟩

/-- Whatever string a token list matches, the captured names are exactly
the group names of the token list, in order. -/
theorem reMatchF_names (ts : List RTok) :
    ∀ (f : Nat) (cs : List Char) (caps : Caps),
      reMatchF f ts cs = some caps → caps.map Prod.fst = grpNames ts := by
  induction ts with
  | nil =>
      intro f cs caps h
      cases f with
      | zero => simp [reMatchF] at h
      | succ f =>
          simp only [reMatchF] at h
          split at h
          · cases h; rfl
          · cases h
  | cons t ts ih =>
      intro f cs caps h
      cases f with
      | zero => simp [reMatchF] at h
      | succ f =>
          cases t with
          | lit c =>
              cases cs with
              | nil => simp [reMatchF] at h
              | cons d cs' =>
                  simp only [reMatchF] at h
                  split at h
                  · simpa [grpNames] using ih f cs' caps h
                  · cases h
          | plus c =>
              simp only [reMatchF] at h
              obtain ⟨j, _, hfj⟩ := tryFrom_eq_some _ _ _ h
              split at hfj
              · simpa [grpNames] using ih f (cs.drop j) caps hfj
              · cases hfj
          | grp n =>
              simp only [reMatchF] at h
              obtain ⟨j, _, hfj⟩ := tryFrom_eq_some _ _ _ h
              cases hr : reMatchF f ts (cs.drop j) with
              | none => rw [hr] at hfj; cases hfj
              | some caps' =>
                  rw [hr] at hfj
                  simp only [Option.map_some'] at hfj
                  cases hfj
                  simpa [grpNames] using ih f (cs.drop j) caps' hr

/-- Template text containing no opening angle bracket is passed through
the substitution verbatim. -/
theorem subSM_no_lt : ∀ (cs : List Char), '<' ∉ cs → subSM none cs = cs := by
  intro cs
  induction cs with
  | nil => intro _; rfl
  | cons c cs ih =>
      intro h
      have hc : ¬ c = '<' := fun e => h (by rw [e]; exact List.mem_cons_self _ _)
      have hcs : '<' ∉ cs := fun m => h (List.mem_cons_of_mem c m)
      simp [subSM, hc, ih hcs]

/-!  Claim C1 (code bug in CookieHandler.set_value).  -/

/-- Claim C1, evaluated at the failing input: per the spec and the class
docstring, a ResultMapping entry cookie__token mapped to abc should set
the response cookie named token to abc, but the source sets the cookie
named by the constructor default pisces_cookie instead; only the deletion
branch (value None) addresses the cookie named token. -/
theorem C1_cookie_set_value_at_failing_input :
    (CookieHandler.default.set_value Response.mkJson "token" (some "abc")).cookieOps
        = [("pisces_cookie", some "abc")]
    ∧ (CookieHandler.default.set_value Response.mkJson "token" none).cookieOps
        = [("token", none)] := by
  exact ⟨rfl, rfl⟩

/-!  Claim C2 (corrected: no escaping of literal template text).  -/

/-- Claim C2 counterexample: the claim says the compiler escapes literal
template text so that the template /foo+ matches exactly the path /foo+
and not /fooo; on the code, the compiled matcher for /foo+ matches /fooo
and fails on /foo+. -/
theorem C2_counterexample :
    reMatch (compiledTokens "/foo+") "/fooo".data = some []
    ∧ reMatch (compiledTokens "/foo+") "/foo+".data = none := by
  exact ⟨by decide, by decide⟩

/-- Claim C2 amended: the compiler does not escape literal template text;
template text outside placeholders is inserted verbatim into the anchored
pattern, so regex metacharacters keep their regex meaning: the compiled
matcher for /foo+ treats the plus as a one-or-more quantifier, matching
/fooo (and /foo) but not the literal path /foo+. -/
theorem C2_amended_no_escaping (url : String) (h : '<' ∉ url.data) :
    compiledPattern url = "^" ++ url ++ "$"
    ∧ compiledTokens "/foo+" = [RTok.lit '/', RTok.lit 'f', RTok.lit 'o', RTok.plus 'o']
    ∧ reMatch (compiledTokens "/foo+") "/foo".data = some []
    ∧ reMatch (compiledTokens "/foo+") "/foo+".data = none := by
  refine ⟨?_, by decide, by decide, by decide⟩
  show "^" ++ String.mk (subSM none url.data) ++ "$" = "^" ++ url ++ "$"
  rw [subSM_no_lt url.data h]

/-- Witness for C2: the amended statement instantiated at the template
/foo+, whose text contains no placeholder bracket. -/
theorem C2_witness :
    compiledPattern "/foo+" = "^" ++ "/foo+" ++ "$"
    ∧ compiledTokens "/foo+" = [RTok.lit '/', RTok.lit 'f', RTok.lit 'o', RTok.plus 'o']
    ∧ reMatch (compiledTokens "/foo+") "/foo".data = some []
    ∧ reMatch (compiledTokens "/foo+") "/foo+".data = none :=
  C2_amended_no_escaping "/foo+" (by decide)

/-!  Claim C3 (corrected: a placeholder matches zero or more characters).  -/

/-- Claim C3 counterexample: the claim says a placeholder never matches
zero characters, so the template with one placeholder after the slash
should not match the bare path consisting of the slash alone; on the code
it does, with an empty capture. -/
theorem C3_counterexample :
    reMatch (compiledTokens "/<one>") "/".data = some [("one", "")]
    ∧ reMatch (compiledTokens "/<one>") "/".data ≠ none := by
  exact ⟨by decide, by decide⟩

/-- Claim C3 amended: for every compiled matcher, a successful match
yields exactly the named captures of the pattern, one per placeholder and
in order; a placeholder matches zero-or-more characters greedily, bounded
by the surrounding literal text; the template with placeholders one and
two around the literal and-segment matched against the bill-and-ted path
yields the captures bill and ted. -/
theorem C3_amended_captures :
    (∀ (ts : List RTok) (cs : List Char) (caps : Caps),
        reMatch ts cs = some caps → caps.map Prod.fst = grpNames ts)
    ∧ grpNames (compiledTokens "/<one>/and/<two>") = ["one", "two"]
    ∧ reMatch (compiledTokens "/<one>/and/<two>") "/bill/and/ted".data
        = some [("one", "bill"), ("two", "ted")]
    ∧ reMatch (compiledTokens "/<one>") "/".data = some [("one", "")] := by
  refine ⟨?_, by decide, by decide, by decide⟩
  intro ts cs caps h
  exact reMatchF_names ts _ cs caps h

/-- Witness for C3: the capture-name fact discharged at the concrete
two-placeholder template and path from the specification. -/
theorem C3_witness :
    ([("one", "bill"), ("two", "ted")] : Caps).map Prod.fst
      = grpNames (compiledTokens "/<one>/and/<two>") :=
  C3_amended_captures.1 (compiledTokens "/<one>/and/<two>") "/bill/and/ted".data
    [("one", "bill"), ("two", "ted")] C3_amended_captures.2.2.1

/-!  Claim C5 (confirmed: first-match routing, anchored and method-gated).  -/

/-- Claim C5: Router.match returns the handle result of the first route,
in declaration order, whose handles_route is true, and None when none is;
handles_route holds exactly when the compiled anchored matcher matches
the whole path and the method is among the allowed methods; hence the
exact pattern of the root route rejects a longer path, and a POST-only
route does not handle GET. -/
theorem C5_router_first_match (es : List Route) (p m : String) (r : Route) :
    Router.match_route ⟨es⟩ p m =
      (match es.find? (fun e => e.handles_route p m) with
       | some e => (e.handle p).map some
       | none => Except.ok none)
    ∧ (r.handles_route p m = true ↔
        (reMatch (compiledTokens r._url) p.data).isSome = true ∧ m ∈ r._methods)
    ∧ (Route.make "/" [] "index" none).handles_route
        "/NB2HI4B2F4XWO33PM5WGKLTDN5WQ====" "GET" = false
    ∧ (Route.make "/test" [] "h" (some ["POST"])).handles_route "/test" "GET" = false := by
  refine ⟨?_, ?_, by decide, by decide⟩
  · show routerGo es p m = _
    induction es with
    | nil => rfl
    | cons e es ih =>
        cases hb : e.handles_route p m with
        | true => simp [routerGo, hb, List.find?_cons_of_pos _ hb]
        | false =>
            have : ¬ ((fun e => e.handles_route p m) e = true) := by simp [hb]
            simp [routerGo, hb, List.find?_cons_of_neg _ this, ih]
  · simp [Route.handles_route, Route._match, Route.re, Bool.and_eq_true,
      List.elem_iff]

/-- Witness for C5: the first-match equation discharged on the empty
route list, and the two concrete rejection facts. -/
theorem C5_witness :
    Router.match_route ⟨[]⟩ "/" "GET" = Except.ok none
    ∧ (Route.make "/" [] "index" none).handles_route
        "/NB2HI4B2F4XWO33PM5WGKLTDN5WQ====" "GET" = false := by
  have h := C5_router_first_match [] "/" "GET" (Route.make "/" [] "index" none)
  exact ⟨by simpa using h.1, h.2.2.1⟩

/-!  Claim C9 (confirmed: configuration error on unresolved callback).  -/

/-- Claim C9: for a Route and a matching path, handle raises the
attribute-resolution error exactly when the callback name does not
resolve to a handler on the instance (missing attribute, or an attribute
holding None); otherwise it returns the deferred invocation of the
resolved handler with the named URL captures bound as its keyword
arguments. -/
theorem C9_handle_config_error (r : Route) (path : String) (caps : Caps)
    (hm : r._match path = some caps) :
    (lookupAttr r.inst r._callback = none →
        r.handle path = Except.error DispatchError.attributeError)
    ∧ (lookupAttr r.inst r._callback = some none →
        r.handle path = Except.error DispatchError.attributeError)
    ∧ (∀ h : Handler, lookupAttr r.inst r._callback = some (some h) →
        r.handle path = Except.ok ⟨h, caps⟩) := by
  refine ⟨fun ha => ?_, fun ha => ?_, fun h ha => ?_⟩ <;>
    simp [Route.handle, ha, hm]

/-- Witness for C9: a resolvable callback yields the bound call with the
capture from the path, and a missing callback yields the error. -/
theorem C9_witness :
    routeWithCb.handle "/foo" = Except.ok ⟨handlerNoBody, [("test", "foo")]⟩
    ∧ routeMissingCb.handle "/foo" = Except.error DispatchError.attributeError := by
  constructor
  · exact (C9_handle_config_error routeWithCb "/foo" [("test", "foo")]
      (by decide)).2.2 handlerNoBody rfl
  · exact (C9_handle_config_error routeMissingCb "/foo" [("test", "foo")]
      (by decide)).1 rfl

/-!  Claim C10 (confirmed: default methods are GET and POST).  -/

/-- Claim C10: a Route constructed without an explicit methods argument
gets exactly the method set GET, POST, and its handles_route is false for
every other method token regardless of the path. -/
theorem C10_default_methods (url : String) (inst : Attrs) (cb : String) (p m : String)
    (h : m ∉ ALL_METHODS) :
    ALL_METHODS = ["GET", "POST"]
    ∧ (Route.make url inst cb none)._methods = ALL_METHODS
    ∧ (Route.make url inst cb none).handles_route p m = false := by
  refine ⟨rfl, rfl, ?_⟩
  have hc : (ALL_METHODS.contains m) = false := by
    rw [← Bool.not_eq_true]
    intro hmem
    exact h (List.elem_iff.mp hmem)
  simp [Route.handles_route, Route.make, hc]
  exact fun _ => h

/-- Witness for C10: a defaulted route on a matching path still rejects
the PUT method. -/
theorem C10_witness :
    ALL_METHODS = ["GET", "POST"]
    ∧ (Route.make "/<x>" [] "cb" none)._methods = ALL_METHODS
    ∧ (Route.make "/<x>" [] "cb" none).handles_route "/a" "PUT" = false :=
  C10_default_methods "/<x>" [] "cb" "/a" "PUT" (by decide)

/-!  Claims C6 and C7 (the parameter binder).  -/

/-- The extraction dictionary, characterized entry-wise: a parameter is
bound exactly when it is declared, not already passed in from the url
match, not self, splits on the first double underscore, and its prefix
has a registered provider; the bound value is that provider's fetch. -/
theorem extract_eq (provs : List ArgProvider) (h : Handler)
    (kws : List (String × String)) (req : Request) (param : String) :
    _extract_params_from_request provs ⟨h, kws⟩ req param =
      if (signatureOf h).contains param && !((kws.map Prod.fst).contains param)
          && param != "self" then
        (match splitOnce param with
         | none => none
         | some kv =>
             match lookupTableP provs kv.1 with
             | none => none
             | some prov => some (prov.get_value req kv.2))
      else none := by
  have hc : (((signatureOf h).filter
      (fun a => !((kws.map Prod.fst).contains a) && a != "self")).contains param)
      = ((signatureOf h).contains param && !((kws.map Prod.fst).contains param)
          && param != "self") := by
    rw [Bool.eq_iff_iff]
    simp [List.elem_iff, List.mem_filter, Bool.and_eq_true, Bool.not_eq_true']
    tauto
  simp only [_extract_params_from_request]
  rw [hc]

/-- Claim C6: the binder binds, for each declared parameter name not
already among the URL captures and distinct from self, the registered
provider's fetch result under the full original name, splitting the name
on the first double underscore; a name without the separator, or with an
unregistered prefix, is omitted, as is a name shadowed by a URL capture. -/
theorem C6_binder_resolution (provs : List ArgProvider) (h : Handler)
    (kws : List (String × String)) (req : Request) (param : String) :
    (_extract_params_from_request provs ⟨h, kws⟩ req param =
      if (signatureOf h).contains param && !((kws.map Prod.fst).contains param)
          && param != "self" then
        (match splitOnce param with
         | none => none
         | some kv =>
             match lookupTableP provs kv.1 with
             | none => none
             | some prov => some (prov.get_value req kv.2))
      else none)
    ∧ _extract_params_from_request defaultProviders
        ⟨⟨["something"], none, [], fun _ => none⟩, []⟩ reqRoot "something" = none
    ∧ _extract_params_from_request defaultProviders
        ⟨⟨["nope__x"], none, [], fun _ => none⟩, []⟩ reqRoot "nope__x" = none
    ∧ _extract_params_from_request defaultProviders
        ⟨handlerGetFoo, [("get__foo", "fromurl")]⟩ reqFooBar "get__foo" = none :=
  ⟨extract_eq provs h kws req param, by decide, by decide, by decide⟩

/-- Witness for C6: a declared get-prefixed parameter with a query value
present is bound to that value under its full name. -/
theorem C6_witness :
    _extract_params_from_request defaultProviders ⟨handlerGetFoo, []⟩ reqFooBar "get__foo"
      = some (some "bar") := by
  have h := (C6_binder_resolution defaultProviders handlerGetFoo [] reqFooBar "get__foo").1
  rw [h]
  decide

/-- Claim C7: a provider-backed parameter is always bound to the
provider's fetch result: a present query value is bound as-is, and an
absent one is bound to the explicit absent value None — even when the
handler declares a default for that parameter, since the explicitly
passed keyword argument overrides the declared default at call time. -/
theorem C7_absent_value_overrides_default (h : Handler) (req : Request)
    (hmem : h.args.contains "get__foo" = true) :
    (_extract_params_from_request defaultProviders ⟨h, []⟩ req) "get__foo"
        = some (dictGet req.args "foo")
    ∧ (dictGet req.args "foo" = some "bar" →
        effectiveArg h (BoundCall.callKwargs ⟨h, []⟩
          (_extract_params_from_request defaultProviders ⟨h, []⟩ req)) "get__foo"
          = some (some "bar"))
    ∧ (dictGet req.args "foo" = none →
        effectiveArg h (BoundCall.callKwargs ⟨h, []⟩
          (_extract_params_from_request defaultProviders ⟨h, []⟩ req)) "get__foo"
          = some none) := by
  have h1 : (signatureOf h).contains "get__foo" = true :=
    List.elem_iff.mpr (List.mem_append_left _ (List.elem_iff.mp hmem))
  have hcond : ((signatureOf h).contains "get__foo"
      && !((([] : List (String × String)).map Prod.fst).contains "get__foo")
      && "get__foo" != "self") = true := by
    rw [h1]; rfl
  have hx : (_extract_params_from_request defaultProviders ⟨h, []⟩ req) "get__foo"
      = some (dictGet req.args "foo") := by
    rw [extract_eq, hcond]
    rfl
  refine ⟨hx, fun hbar => ?_, fun hnone => ?_⟩
  · simp [effectiveArg, BoundCall.callKwargs, hx, hbar]
  · simp [effectiveArg, BoundCall.callKwargs, hx, hnone]

/-- Witness for C7: with the default-declaring handler fixture, a request
carrying foo=bar binds bar, and a request without it binds None. -/
theorem C7_witness :
    effectiveArg handlerGetFoo (BoundCall.callKwargs ⟨handlerGetFoo, []⟩
      (_extract_params_from_request defaultProviders ⟨handlerGetFoo, []⟩ reqFooBar))
      "get__foo" = some (some "bar")
    ∧ effectiveArg handlerGetFoo (BoundCall.callKwargs ⟨handlerGetFoo, []⟩
      (_extract_params_from_request defaultProviders ⟨handlerGetFoo, []⟩ reqRoot))
      "get__foo" = some none :=
  ⟨(C7_absent_value_overrides_default handlerGetFoo reqFooBar (by decide)).2.1 (by decide),
   (C7_absent_value_overrides_default handlerGetFoo reqRoot (by decide)).2.2 (by decide)⟩

/-!  Claim C8 (the consumer mutation pass).  -/

/-- The consumer and split remainder a mapping key is routed to, if any:
the key must split on the first double underscore and its prefix must
have a registered consumer. -/
def consumedBy (cons : List ResponseConsumer) (key : String) :
    Option (ResponseConsumer × String) :=
  match splitOnce key with
  | none => none
  | some cp => (lookupTableC cons cp.1).map (fun c => (c, cp.2))

/-- The mutation pass, characterized: the surviving mapping is the
original filtered to the keys no consumer takes, and the response is the
in-order fold of set_value over the consumed entries. -/
theorem apply_consumer_spec (cons : List ResponseConsumer) :
    ∀ (m : ResultMapping) (resp : Response),
      apply_consumer_mutations cons m resp =
        (m.filter (fun kv => (consumedBy cons kv.1).isNone),
         m.foldl (fun r kv =>
           match consumedBy cons kv.1 with
           | some cp => cp.1.set_value r cp.2 kv.2
           | none => r) resp) := by
  intro m
  induction m with
  | nil => intro resp; rfl
  | cons kv rest ih =>
      intro resp
      obtain ⟨key, value⟩ := kv
      cases hs : splitOnce key with
      | none =>
          simp [apply_consumer_mutations, consumedBy, hs, ih]
      | some cp =>
          cases hl : lookupTableC cons cp.1 with
          | none => simp [apply_consumer_mutations, consumedBy, hs, hl, ih]
          | some c => simp [apply_consumer_mutations, consumedBy, hs, hl, ih]

/-- Claim C8: every key whose first-double-underscore prefix has a
registered consumer is fed to that consumer's set_value and removed from
the mapping before serialization; every other key — unknown prefix or no
separator — passes through unchanged under its original full name, never
an error; in the specification's example only the url field survives. -/
theorem C8_consumer_scan (cons : List ResponseConsumer) (m : ResultMapping)
    (resp : Response) :
    (apply_consumer_mutations cons m resp =
      (m.filter (fun kv => (consumedBy cons kv.1).isNone),
       m.foldl (fun r kv =>
         match consumedBy cons kv.1 with
         | some cp => cp.1.set_value r cp.2 kv.2
         | none => r) resp))
    ∧ (apply_consumer_mutations defaultConsumers
        [("cookie__token", some "abc"), ("url", some "http://x")] Response.mkJson).1
        = [("url", some "http://x")]
    ∧ (apply_consumer_mutations defaultConsumers
        [("no_separator", some "kept"), ("zzz__unknown", some "kept_too")]
        Response.mkJson)
        = ([("no_separator", some "kept"), ("zzz__unknown", some "kept_too")],
           Response.mkJson) :=
  ⟨apply_consumer_spec cons m resp, by decide, by decide⟩

/-- Witness for C8: the characterization discharged on the concrete
cookie-and-url mapping with the default consumer registry. -/
theorem C8_witness :
    apply_consumer_mutations defaultConsumers
      [("cookie__token", some "abc"), ("url", some "http://x")] Response.mkJson
      = ([("cookie__token", some "abc"), ("url", some "http://x")].filter
           (fun kv => (consumedBy defaultConsumers kv.1).isNone),
         [("cookie__token", some "abc"), ("url", some "http://x")].foldl
           (fun r kv =>
             match consumedBy defaultConsumers kv.1 with
             | some cp => cp.1.set_value r cp.2 kv.2
             | none => r) Response.mkJson) :=
  (C8_consumer_scan defaultConsumers
    [("cookie__token", some "abc"), ("url", some "http://x")] Response.mkJson).1

/-!  Claim C4 (corrected: NotFound also on matched handlers with no body).  -/

/-- Claim C4 counterexample: a router does match the request — its match
returns a bound call — and the handler legitimately returns no mapping,
yet the dispatch outcome is NotFound, contradicting the claim that a
matching router never yields NotFound. -/
theorem C4_counterexample :
    (Router.mk [routeNoBody]).match_route "/" "GET"
        = Except.ok (some ⟨handlerNoBody, []⟩)
    ∧ appNoBody.wsgi_app reqRoot = WsgiOutcome.notFound :=
  ⟨rfl, rfl⟩

/-- The router loop raises NotFound precisely when every router either
does not match or matches with a handler invocation returning None. -/
theorem wsgiLoop_notFound_iff (provs : List ArgProvider)
    (cons : List ResponseConsumer) (req : Request) :
    ∀ (routers : List Router),
      wsgiLoop provs cons req routers = WsgiOutcome.notFound ↔
        ∀ ro ∈ routers,
          ro.match_route req.path req.method = Except.ok none
          ∨ ∃ m, ro.match_route req.path req.method = Except.ok (some m)
              ∧ m.invoke (_extract_params_from_request provs m req) = none := by
  intro routers
  induction routers with
  | nil => simp [wsgiLoop]
  | cons ro rest ih =>
      cases hm : ro.match_route req.path req.method with
      | error e =>
          simp only [wsgiLoop, hm]
          constructor
          · intro h; cases h
          · intro hall
            rcases hall ro (List.mem_cons_self _ _) with h1 | ⟨m, h2, _⟩
            · rw [hm] at h1; cases h1
            · rw [hm] at h2; cases h2
      | ok om =>
          cases om with
          | none =>
              simp only [wsgiLoop, hm]
              rw [ih]
              constructor
              · intro hrest ro' hro'
                rcases List.mem_cons.mp hro' with hro1 | hmem
                · subst hro1; exact Or.inl hm
                · exact hrest ro' hmem
              · intro hall ro' hmem
                exact hall ro' (List.mem_cons_of_mem _ hmem)
          | some m =>
              cases hv : m.invoke (_extract_params_from_request provs m req) with
              | none =>
                  simp only [wsgiLoop, hm, hv]
                  rw [ih]
                  constructor
                  · intro hrest ro' hro'
                    rcases List.mem_cons.mp hro' with hro1 | hmem
                    · subst hro1; exact Or.inr ⟨m, hm, hv⟩
                    · exact hrest ro' hmem
                  · intro hall ro' hmem
                    exact hall ro' (List.mem_cons_of_mem _ hmem)
              | some vm =>
                  simp only [wsgiLoop, hm, hv]
                  constructor
                  · intro h; cases h
                  · intro hall
                    rcases hall ro (List.mem_cons_self _ _) with h1 | ⟨m', h2, h3⟩
                    · rw [hm] at h1; cases h1
                    · rw [hm] at h2
                      cases h2
                      rw [hv] at h3; cases h3

/-- Claim C4 amended: the dispatcher signals NotFound exactly when no
configured router yields both a match and a handler invocation producing
a mapping; a matched handler that returns no mapping falls through to the
remaining routers and, when none produces a response, the outcome is
NotFound. -/
theorem C4_amended_notFound_iff (app : AppContainer) (req : Request) :
    app.wsgi_app req = WsgiOutcome.notFound ↔
      ∀ ro ∈ app._routes,
        ro.match_route req.path req.method = Except.ok none
        ∨ ∃ m, ro.match_route req.path req.method = Except.ok (some m)
            ∧ m.invoke (_extract_params_from_request app._arg_providers m req) = none :=
  wsgiLoop_notFound_iff app._arg_providers app._consumers req app._routes

/-- Witness for C4: the amended equivalence discharged on the app whose
single route matches the root request with a bodyless handler. -/
theorem C4_witness :
    appNoBody.wsgi_app reqRoot = WsgiOutcome.notFound := by
  refine (C4_amended_notFound_iff appNoBody reqRoot).mpr ?_
  intro ro hro
  have hr : ro = Router.mk [routeNoBody] := by
    simpa [appNoBody, AppContainer.make] using hro
  subst hr
  exact Or.inr ⟨⟨handlerNoBody, []⟩, rfl, rfl⟩
